import Mathlib

/-!
Verification of the `mqtt-bus` client library (`mqttclient/mqttclient.go`).

The development shallowly embeds the parts of the Go source relevant to the
client lifecycle and message-dispatch engine: the `Config` loader
(`NewMQTTClient` / `loadEnvOverrides`), the event schema and its JSON
wire format (`encoding/json` on `dtos.Event`), the dispatch step of
`handleMessages`, `Start`, `Stop`, `PublishEvent` and `PublishTestEvent`.

Conventions:
- Go strings are Lean `String`s; Go `int`/`int64` are Lean `Int` (overflow
  is checked explicitly where the source's behaviour depends on it).
- `os.Getenv` is a total function `String → String` returning `""` for an
  unset variable, exactly as in Go.
- Nondeterministic inputs of the source (fresh UUIDs, wall-clock times,
  adapter results) are explicit parameters.
- A JSON payload is modelled as a `Json` syntax tree rather than a byte
  string; `encoding/json` marshalling and unmarshalling are modelled as
  functions to and from that tree.
-/

namespace MqttBus

/-- Broker sub-record of `Config` (`mqttclient.go`, struct `Config.Broker`). -/
structure BrokerConfig where
  host : String
  port : Int
  protocol : String
deriving Repr, DecidableEq

/-- The client configuration (`mqttclient.go`, struct `Config`).
`envPref` renders the Go field `EnvPrefix` (environment-variable name
prefix). -/
structure Config where
  broker : BrokerConfig
  type : String
  topic : String
  clientID : String
  username : String
  password : String
  publish : Bool
  interval : Int
  logLevel : String
  envPref : String
deriving Repr, DecidableEq

/-- The default configuration built at the top of `NewMQTTClient`
(`mqttclient.go` lines 56–74). `clientUuid` stands for the fresh
`uuid.New().String()`. -/
def defaultConfig (clientUuid : String) : Config :=
  { broker := { host := "localhost", port := 1883, protocol := "tcp" }
    type := "mqtt"
    topic := "edgex/events/#"
    clientID := "EdgeXClient-" ++ clientUuid
    username := ""
    password := ""
    publish := false
    interval := 10
    logLevel := "INFO"
    envPref := "EDGEX_" }

/-- A parsed configuration file: each field is present (`some`) or absent
(`none`).  Models the effect of `toml.DecodeFile(configPath, &cfg)`
(`mqttclient.go` line 78): keys present in the TOML file overwrite the
corresponding struct field, absent keys leave it unchanged. -/
structure FileConfig where
  host : Option String := none
  port : Option Int := none
  protocol : Option String := none
  type : Option String := none
  topic : Option String := none
  clientID : Option String := none
  username : Option String := none
  password : Option String := none
  publish : Option Bool := none
  interval : Option Int := none
  logLevel : Option String := none
deriving Repr

/-- Overlay the file's values on a configuration.  `none` models an empty
`configPath` (the file is not read at all).  The Go field `EnvPrefix` has
no `toml` tag and is not set by any of the snake_case keys the spec
recognises, so it is retained. -/
def applyFile (cfg : Config) (file : Option FileConfig) : Config :=
  match file with
  | none => cfg
  | some f =>
    { broker :=
        { host := f.host.getD cfg.broker.host
          port := f.port.getD cfg.broker.port
          protocol := f.protocol.getD cfg.broker.protocol }
      type := f.type.getD cfg.type
      topic := f.topic.getD cfg.topic
      clientID := f.clientID.getD cfg.clientID
      username := f.username.getD cfg.username
      password := f.password.getD cfg.password
      publish := f.publish.getD cfg.publish
      interval := f.interval.getD cfg.interval
      logLevel := f.logLevel.getD cfg.logLevel
      envPref := cfg.envPref }

/-- `fmt`'s white-space table (`fmt.space`): the ranges the scanner treats
as space — 0x09–0x0D, ASCII space, NEL, NBSP, and the Unicode space
separators.  Newline handling is special-cased in the skip loop. -/
def isSpaceChar (c : Char) : Bool :=
  let n := c.toNat
  (0x09 ≤ n && n ≤ 0x0d) || n == 0x20 || n == 0x85 || n == 0xa0 ||
  n == 0x1680 || (0x2000 ≤ n && n ≤ 0x200a) || n == 0x2028 || n == 0x2029 ||
  n == 0x202f || n == 0x205f || n == 0x3000

/-- `ss.SkipSpace` with `nlIsSpace = false`, as `Sscanf` runs it before a
`%d` verb: white-space runes are discarded; a `'\r'` immediately followed
by `'\n'` collapses into a newline; a newline is an `unexpected newline`
scan error (`none`) because the format string has none; a bare `'\r'` is
ordinary white space.  `some cs` is the remaining input. -/
def skipSpace : List Char → Option (List Char)
  | [] => some []
  | c :: cs =>
    if c == '\n' then none
    else if c == '\r' then
      match cs with
      | '\n' :: _ => none
      | _ => skipSpace cs
    else if isSpaceChar c then skipSpace cs
    else some (c :: cs)

/-- Smallest Go `int` (64-bit). -/
def intMin : Int := -(2 ^ 63)

/-- Largest Go `int` (64-bit). -/
def intMax : Int := 2 ^ 63 - 1

/-- Accumulate the value of a maximal leading run of ASCII digits. -/
def digitsVal : List Char → Nat → Nat
  | [], acc => acc
  | c :: cs, acc =>
    if c.isDigit then digitsVal cs (acc * 10 + (c.toNat - 48)) else acc

/-- Scan a nonempty run of leading ASCII digits; `none` if the first
character is not a digit (the scanner's `expected integer` error). -/
def scanDigits : List Char → Option Nat
  | [] => none
  | c :: cs => if c.isDigit then some (digitsVal (c :: cs) 0) else none

/-- Bounds check corresponding to `strconv.ParseInt(..., 10, 64)` inside the
scanner: out-of-range integers are an error and nothing is assigned. -/
def fitsInt (v : Int) : Option Int :=
  if v < intMin ∨ intMax < v then none else some v

/-- Model of `fmt.Sscanf(v, "%d", &x)` as used in `loadEnvOverrides`
(`mqttclient.go` lines 133 and 159): skip leading white space per
`skipSpace`, then optionally a sign, then a nonempty base-10 digit run;
input after the scanned integer is ignored (`Sscanf` stops once the
format is exhausted).  `some n` means the scan succeeded and assigned `n`
through the pointer; `none` means a scan error, in which case the
pointed-to field is untouched. -/
def sscanfInt (s : String) : Option Int :=
  match skipSpace s.data with
  | none => none
  | some cs =>
    match cs with
    | '-' :: rest => (scanDigits rest).bind fun n => fitsInt (-(n : Int))
    | '+' :: rest => (scanDigits rest).bind fun n => fitsInt (n : Int)
    | _ => (scanDigits cs).bind fun n => fitsInt (n : Int)

/-- One string-valued override of `loadEnvOverrides`: the Go pattern
`if v := os.Getenv(name); v != "" { field = v }`. -/
def envStr (env : String → String) (name fallback : String) : String :=
  if env name = "" then fallback else env name

/-- One integer-valued override of `loadEnvOverrides`: the Go pattern
`if v := os.Getenv(name); v != "" { fmt.Sscanf(v, "%d", &field) }` —
`Sscanf` assigns through the pointer on success; on a scan error the
field keeps its previous value. -/
def envInt (env : String → String) (name : String) (fallback : Int) : Int :=
  if env name = "" then fallback else (sscanfInt (env name)).getD fallback

/-- `loadEnvOverrides` (`mqttclient.go` lines 128–166).  Each `if` in the
source assigns a distinct field, so the sequence of conditional updates
equals this simultaneous record.  `PUBLISH` is special (line 155): the
guard is `v == "true"`, so any other value — including the empty string —
leaves `publish` unchanged.  `EnvPrefix` itself is never overridden. -/
def loadEnvOverrides (env : String → String) (cfg : Config) : Config :=
  let p := cfg.envPref
  { broker :=
      { host := envStr env (p ++ "BROKER_HOST") cfg.broker.host
        port := envInt env (p ++ "BROKER_PORT") cfg.broker.port
        protocol := envStr env (p ++ "BROKER_PROTOCOL") cfg.broker.protocol }
    type := envStr env (p ++ "TYPE") cfg.type
    topic := envStr env (p ++ "TOPIC") cfg.topic
    clientID := envStr env (p ++ "CLIENT_ID") cfg.clientID
    username := envStr env (p ++ "USERNAME") cfg.username
    password := envStr env (p ++ "PASSWORD") cfg.password
    publish := if env (p ++ "PUBLISH") = "true" then true else cfg.publish
    interval := envInt env (p ++ "PUBLISH_INTERVAL") cfg.interval
    logLevel := envStr env (p ++ "LOG_LEVEL") cfg.logLevel
    envPref := cfg.envPref }

/-- The configuration produced by `NewMQTTClient` (`mqttclient.go` lines
54–85): defaults, then the optional file, then environment overrides. -/
def newMQTTClientConfig (clientUuid : String) (file : Option FileConfig)
    (env : String → String) : Config :=
  loadEnvOverrides env (applyFile (defaultConfig clientUuid) file)

/-! ## Event schema and JSON wire format

The payload schema is `dtos.Event` with `dtos.BaseReading`; the wire
format (field names, shapes) is the one produced by `encoding/json` on
those structs, as fixed in §3/§6 of the package's interface: lowercase
field names, readings as an array, the simple reading's `value` inline. -/

/-- JSON syntax tree standing for the byte payload of an envelope. -/
inductive Json where
  | str : String → Json
  | int : Int → Json
  | arr : List Json → Json
  | obj : List (String × Json) → Json
  | null : Json

/-- Key lookup in a JSON object (`encoding/json` matches each struct field
by its tag; keys absent from the object leave the field at its zero
value). -/
def Json.lookup (j : Json) (k : String) : Option Json :=
  match j with
  | .obj fields => fields.lookup k
  | _ => none

/-- `dtos.SimpleReading`: the inline `value` of a reading. -/
structure SimpleReading where
  value : String
deriving Repr, DecidableEq

/-- `dtos.BaseReading` as serialized on the wire. -/
structure BaseReading where
  id : String
  deviceName : String
  resourceName : String
  profileName : String
  origin : Int
  valueType : String
  simpleReading : SimpleReading
deriving Repr, DecidableEq

/-- `dtos.Event` as serialized on the wire. -/
structure Event where
  id : String
  deviceName : String
  profileName : String
  sourceName : String
  origin : Int
  readings : List BaseReading
deriving Repr, DecidableEq

/-- `json.Marshal` of a `dtos.BaseReading`. -/
def encodeReading (r : BaseReading) : Json :=
  .obj [("id", .str r.id),
        ("deviceName", .str r.deviceName),
        ("resourceName", .str r.resourceName),
        ("profileName", .str r.profileName),
        ("origin", .int r.origin),
        ("valueType", .str r.valueType),
        ("value", .str r.simpleReading.value)]

/-- `json.Marshal` of a `dtos.Event` (`payload, err := json.Marshal(event)`
in `PublishEvent` / `PublishTestEvent`).  Marshalling these structs cannot
fail in Go (no unsupported types), so the encoder is total. -/
def encodeEvent (e : Event) : Json :=
  .obj [("id", .str e.id),
        ("deviceName", .str e.deviceName),
        ("profileName", .str e.profileName),
        ("sourceName", .str e.sourceName),
        ("origin", .int e.origin),
        ("readings", .arr (e.readings.map encodeReading))]

/-- Unmarshal a string field: a missing key or JSON `null` leaves the
field at its zero value `""`; a value of any other JSON kind is an
`UnmarshalTypeError`. -/
def getString (j : Json) (k : String) : Option String :=
  match j.lookup k with
  | none => some ""
  | some (.str s) => some s
  | some .null => some ""
  | some _ => none

/-- Unmarshal an integer field: a missing key or JSON `null` leaves the
field at its zero value `0`; a value of any other JSON kind is an
`UnmarshalTypeError`. -/
def getInt (j : Json) (k : String) : Option Int :=
  match j.lookup k with
  | none => some 0
  | some (.int n) => some n
  | some .null => some 0
  | some _ => none

/-- `json.Unmarshal` into a `dtos.BaseReading`. -/
def decodeReading (j : Json) : Option BaseReading :=
  match j with
  | .obj _ => do
    let id ← getString j "id"
    let deviceName ← getString j "deviceName"
    let resourceName ← getString j "resourceName"
    let profileName ← getString j "profileName"
    let origin ← getInt j "origin"
    let valueType ← getString j "valueType"
    let value ← getString j "value"
    pure { id, deviceName, resourceName, profileName, origin, valueType
           simpleReading := { value } }
  | _ => none

/-- Unmarshal a JSON array elementwise into readings. -/
def decodeReadingList : List Json → Option (List BaseReading)
  | [] => some []
  | j :: js => do
    let r ← decodeReading j
    let rs ← decodeReadingList js
    pure (r :: rs)

/-- `json.Unmarshal(msg.Payload, &event)` (`mqttclient.go` line 216) into a
`dtos.Event`: `none` is a decode error. -/
def decodeEvent (j : Json) : Option Event :=
  match j with
  | .obj _ => do
    let id ← getString j "id"
    let deviceName ← getString j "deviceName"
    let profileName ← getString j "profileName"
    let sourceName ← getString j "sourceName"
    let origin ← getInt j "origin"
    let readings ←
      match j.lookup "readings" with
      | none => some []
      | some .null => some []
      | some (.arr l) => decodeReadingList l
      | some _ => none
    pure { id, deviceName, profileName, sourceName, origin, readings }
  | _ => none

/-! ## Envelope and dispatch step -/

/-- `types.MessageEnvelope`: correlation id, content type, payload and, on
inbound messages, the topic the envelope arrived on (outbound envelopes
leave it at its zero value `""`). -/
structure MessageEnvelope where
  correlationID : String
  contentType : String
  payload : Json
  receivedTopic : String

/-- Observable effect of one envelope case of `handleMessages`
(`mqttclient.go` lines 207–223): whether `json.Unmarshal` was reached,
the callback invocations performed (topic, decoded event), and whether an
error was logged. -/
structure StepEffect where
  decodeAttempted : Bool
  callbackCalls : List (String × Event)
  errorLogged : Bool
deriving Repr

/-- One envelope received on `c.messages` in `handleMessages`
(`mqttclient.go` lines 207–223).  `hasHandler` models `c.handler != nil`.
The content-type gate runs before any decoding; a gate or decode failure
logs an error and `continue`s; otherwise the callback (when present) is
invoked with `(msg.ReceivedTopic, event)`. -/
def handleEnvelope (hasHandler : Bool) (msg : MessageEnvelope) : StepEffect :=
  if msg.contentType ≠ "application/json" then
    { decodeAttempted := false, callbackCalls := [], errorLogged := true }
  else
    match decodeEvent msg.payload with
    | none => { decodeAttempted := true, callbackCalls := [], errorLogged := true }
    | some event =>
      { decodeAttempted := true
        callbackCalls := if hasHandler then [(msg.receivedTopic, event)] else []
        errorLogged := false }

/-! ## Client lifecycle: Start, Stop, Publish -/

/-- Error taxonomy surfaced by the client: adapter failures are wrapped as
bus errors, `json.Marshal` failures as serialize errors (the latter are
unreachable for the total encoder but kept for the error shape). -/
inductive ClientError where
  | busError : String → ClientError
  | serializeError : String → ClientError
deriving Repr, DecidableEq

/-- Side effects `Start` can perform, in program order. -/
inductive StartAction where
  | connect
  | subscribe
  | spawnDispatch
  | spawnPublish
  | spawnSignalWatcher
deriving Repr, DecidableEq

/-- `Start` (`mqttclient.go` lines 169–197), as the trace of adapter calls
and spawned loops together with its return value.  `connectErr` and
`subscribeErr` are the adapter's results for `Connect` and `Subscribe`
(`none` = success); a failure returns the wrapped error immediately, so
later actions never happen. -/
def start (cfg : Config) (connectErr subscribeErr : Option String) :
    List StartAction × Option ClientError :=
  match connectErr with
  | some e => ([.connect], some (.busError ("连接消息总线失败: " ++ e)))
  | none =>
    match subscribeErr with
    | some e => ([.connect, .subscribe], some (.busError ("订阅消息失败: " ++ e)))
    | none =>
      ([.connect, .subscribe, .spawnDispatch]
         ++ (if cfg.publish then [.spawnPublish] else [])
         ++ [.spawnSignalWatcher],
       none)

/-- The client state `Stop` acts on: whether `stopCh` has already been
closed, and how many `Disconnect` calls the adapter has received. -/
structure ClientState where
  config : Config
  stopClosed : Bool
  disconnects : Nat
deriving Repr

/-- `Stop` (`mqttclient.go` lines 315–322).  `close(c.stopCh)` on an
already-closed channel panics in Go; `none` models that runtime panic
(`Disconnect` is then not reached).  Otherwise the channel is closed and
the adapter receives one `Disconnect`. -/
def stop (c : ClientState) : Option ClientState :=
  if c.stopClosed then none
  else some { c with stopClosed := true, disconnects := c.disconnects + 1 }

/-- Observable outcome of `PublishEvent` / `PublishTestEvent`: the
envelope and topic handed to the adapter's `Publish`, and the returned
error. -/
structure PublishOutcome where
  published : Option (MessageEnvelope × String)
  result : Option ClientError

/-- `PublishEvent` (`mqttclient.go` lines 293–312).  `corrUuid` stands for
the fresh `uuid.New().String()`; `pubErr` is the adapter's `Publish`
result.  The method reads no lifecycle state: it takes the whole
`ClientState` and uses none of it beyond the adapter boundary, exactly as
the source touches only `c.messageBus` and `c.logger`. -/
def publishEvent (_c : ClientState) (event : Event) (corrUuid topic : String)
    (pubErr : Option String) : PublishOutcome :=
  let payload := encodeEvent event
  let msgEnvelope : MessageEnvelope :=
    { correlationID := corrUuid, contentType := "application/json"
      payload := payload, receivedTopic := "" }
  { published := some (msgEnvelope, topic)
    result := pubErr.map fun e => .busError ("发布消息失败: " ++ e) }

/-- Nondeterministic inputs of one `PublishTestEvent` call: the three fresh
UUIDs, the two `time.Now().UnixNano()` samples, and the RFC3339 rendering
of the third `time.Now()`. -/
structure TestEventInputs where
  eventUuid : String
  readingUuid : String
  corrUuid : String
  eventOrigin : Int
  readingOrigin : Int
  timeStr : String
deriving Repr

/-- The synthetic event built by `PublishTestEvent` (`mqttclient.go` lines
251–270). -/
def makeTestEvent (i : TestEventInputs) : Event :=
  { id := i.eventUuid
    deviceName := "TestDevice"
    profileName := "TestProfile"
    sourceName := "TestSource"
    origin := i.eventOrigin
    readings := [{ id := i.readingUuid
                   deviceName := "TestDevice"
                   resourceName := "TestResource"
                   profileName := "TestProfile"
                   origin := i.readingOrigin
                   valueType := "String"
                   simpleReading := { value := "Test value at " ++ i.timeStr } }] }

/-- `PublishTestEvent` (`mqttclient.go` lines 250–290): build the synthetic
event, marshal it, wrap it with a fresh correlation UUID and content type
`application/json`, and publish.  Like `publishEvent`, it reads no
lifecycle state. -/
def publishTestEvent (_c : ClientState) (i : TestEventInputs) (topic : String)
    (pubErr : Option String) : PublishOutcome :=
  let event := makeTestEvent i
  let payload := encodeEvent event
  let msgEnvelope : MessageEnvelope :=
    { correlationID := i.corrUuid, contentType := "application/json"
      payload := payload, receivedTopic := "" }
  { published := some (msgEnvelope, topic)
    result := pubErr.map fun e => .busError ("发布消息失败: " ++ e) }

/-! ## Auxiliary definitions for the statements -/

/-- Suffixes of the string-valued environment overrides recognised by
`loadEnvOverrides`. -/
def stringVarSuffixes : List String :=
  ["BROKER_HOST", "BROKER_PROTOCOL", "TYPE", "TOPIC", "CLIENT_ID",
   "USERNAME", "PASSWORD", "LOG_LEVEL"]

/-- The configuration field each string-valued override suffix targets. -/
def getStrField (cfg : Config) (s : String) : String :=
  if s = "BROKER_HOST" then cfg.broker.host
  else if s = "BROKER_PROTOCOL" then cfg.broker.protocol
  else if s = "TYPE" then cfg.type
  else if s = "TOPIC" then cfg.topic
  else if s = "CLIENT_ID" then cfg.clientID
  else if s = "USERNAME" then cfg.username
  else if s = "PASSWORD" then cfg.password
  else if s = "LOG_LEVEL" then cfg.logLevel
  else ""

/-- A client that has been started and not yet stopped. -/
def startedClient : ClientState :=
  { config := defaultConfig "u", stopClosed := false, disconnects := 0 }

/-- An inbound envelope whose content type is not `application/json`. -/
def plainTextEnvelope : MessageEnvelope :=
  { correlationID := "corr-1", contentType := "text/plain"
    payload := .null, receivedTopic := "edgex/events/ns/dev" }

/-- Environment with only `EDGEX_TOPIC` set. -/
def envTopicOnly : String → String :=
  fun n => if n = "EDGEX_TOPIC" then "overridden/topic" else ""

/-- Environment with `EDGEX_BROKER_PORT` set to a string that is not a
well-formed integer but begins with the digits `12`. -/
def envPortGarbage : String → String :=
  fun n => if n = "EDGEX_BROKER_PORT" then "12abc" else ""

/-- Environment with an unparsable `EDGEX_BROKER_PORT` and a well-formed
`EDGEX_PUBLISH_INTERVAL`. -/
def envMixedInts : String → String :=
  fun n =>
    if n = "EDGEX_BROKER_PORT" then "abc"
    else if n = "EDGEX_PUBLISH_INTERVAL" then "7"
    else ""

/-- A configuration file that enables publishing. -/
def filePublishTrue : FileConfig := { publish := some true }

/-- Environment with `EDGEX_PUBLISH` set to `"false"`. -/
def envPublishFalse : String → String :=
  fun n => if n = "EDGEX_PUBLISH" then "false" else ""

/-- Environment with `EDGEX_PUBLISH` set to `"true"`. -/
def envPublishTrue : String → String :=
  fun n => if n = "EDGEX_PUBLISH" then "true" else ""

/-- Concrete freshness inputs for a `PublishTestEvent` call. -/
def testInputs : TestEventInputs :=
  { eventUuid := "ev-uuid", readingUuid := "rd-uuid", corrUuid := "co-uuid"
    eventOrigin := 1, readingOrigin := 2, timeStr := "2026-10-11T00:00:00Z" }

/-! ## Shared lemmas -/

/-- Unmarshalling inverts marshalling on a single reading. -/
theorem decodeReading_encodeReading (r : BaseReading) :
    decodeReading (encodeReading r) = some r := rfl

/-- Unmarshalling inverts marshalling on a reading list. -/
theorem decodeReadingList_map (rs : List BaseReading) :
    decodeReadingList (rs.map encodeReading) = some rs := by
  induction rs with
  | nil => rfl
  | cons r rs ih => simp [List.map, decodeReadingList, ih]; rfl

/-- Unmarshalling inverts marshalling on a whole event: JSON round-trip. -/
theorem decodeEvent_encodeEvent (e : Event) :
    decodeEvent (encodeEvent e) = some e := by
  show (do
    let id ← getString (encodeEvent e) "id"
    let deviceName ← getString (encodeEvent e) "deviceName"
    let profileName ← getString (encodeEvent e) "profileName"
    let sourceName ← getString (encodeEvent e) "sourceName"
    let origin ← getInt (encodeEvent e) "origin"
    let readings ← decodeReadingList (e.readings.map encodeReading)
    pure { id, deviceName, profileName, sourceName, origin, readings : Event })
      = some e
  rw [decodeReadingList_map]
  rfl

/-! ## Claim theorems -/

/-- C1: the claim states `Stop` is idempotent — the stop channel never
closed twice and the second call safe.  The code is not: on a started
client the first `Stop` closes the channel and disconnects once, but the
second `Stop` reaches `close(c.stopCh)` on an already-closed channel,
which panics at runtime (`none`) instead of being a no-op. -/
theorem stop_twice_panics :
    stop startedClient
      = some { config := defaultConfig "u", stopClosed := true, disconnects := 1 } ∧
    (stop startedClient).bind stop = none :=
  ⟨rfl, rfl⟩

/-- C2: an inbound envelope whose content type is any string other than
`application/json` is dropped by the dispatch step with an error log: the
callback is never invoked for it and its payload is never decoded. -/
theorem contentType_gate (hasHandler : Bool) (msg : MessageEnvelope)
    (h : msg.contentType ≠ "application/json") :
    handleEnvelope hasHandler msg
      = { decodeAttempted := false, callbackCalls := [], errorLogged := true } := by
  simp [handleEnvelope, h]

/-- C2 witness: a `text/plain` envelope is dropped without decoding. -/
theorem contentType_gate_witness :
    handleEnvelope true plainTextEnvelope
      = { decodeAttempted := false, callbackCalls := [], errorLogged := true } :=
  contentType_gate true plainTextEnvelope (by decide)

/-- C3: serializing an event exactly as `PublishEvent` does, wrapping it
in an envelope with content type `application/json`, and feeding that
envelope to the dispatch step delivers exactly the same event to the
callback, paired with the envelope's received topic. -/
theorem publish_dispatch_roundtrip (c : ClientState) (e : Event)
    (corr pubTopic rt : String) (pubErr : Option String) :
    (publishEvent c e corr pubTopic pubErr).published
      = some ({ correlationID := corr, contentType := "application/json"
                payload := encodeEvent e, receivedTopic := "" }, pubTopic) ∧
    handleEnvelope true
        { correlationID := corr, contentType := "application/json"
          payload := encodeEvent e, receivedTopic := rt }
      = { decodeAttempted := true, callbackCalls := [(rt, e)], errorLogged := false } := by
  refine ⟨rfl, ?_⟩
  simp [handleEnvelope, decodeEvent_encodeEvent]

/-- C4: the loader's result is the defaults overlaid by the file's values
overlaid by the environment overrides, and for every recognised
string-valued environment variable a non-empty value wins over the file
while an empty value retains the prior (default or file) value. -/
theorem config_overlay_order (uuid : String) (file : Option FileConfig)
    (env : String → String) (s : String) (hs : s ∈ stringVarSuffixes) :
    newMQTTClientConfig uuid file env
      = loadEnvOverrides env (applyFile (defaultConfig uuid) file) ∧
    (env ((applyFile (defaultConfig uuid) file).envPref ++ s) = "" →
      getStrField (newMQTTClientConfig uuid file env) s
        = getStrField (applyFile (defaultConfig uuid) file) s) ∧
    (env ((applyFile (defaultConfig uuid) file).envPref ++ s) ≠ "" →
      getStrField (newMQTTClientConfig uuid file env) s
        = env ((applyFile (defaultConfig uuid) file).envPref ++ s)) := by
  refine ⟨rfl, ?_, ?_⟩ <;>
  · intro h
    simp only [stringVarSuffixes, List.mem_cons, List.not_mem_nil, or_false] at hs
    rcases hs with rfl | rfl | rfl | rfl | rfl | rfl | rfl | rfl <;>
      simp_all [newMQTTClientConfig, loadEnvOverrides, getStrField, envStr]

/-- C4 witness: with only `EDGEX_TOPIC` set, the topic is overridden and
`username` keeps its prior value. -/
theorem config_overlay_order_witness :
    getStrField (newMQTTClientConfig "u" none envTopicOnly) "TOPIC"
      = "overridden/topic" ∧
    getStrField (newMQTTClientConfig "u" none envTopicOnly) "USERNAME"
      = getStrField (applyFile (defaultConfig "u") none) "USERNAME" := by
  refine ⟨?_, ?_⟩
  · exact (config_overlay_order "u" none envTopicOnly "TOPIC" (by decide)).2.2
      (by decide)
  · exact (config_overlay_order "u" none envTopicOnly "USERNAME" (by decide)).2.1
      (by decide)

/-- C5 counterexample: the claim says every non-well-formed value of
`BROKER_PORT` is ignored with the previous port retained; but
`EDGEX_BROKER_PORT="12abc"` is not a well-formed integer and the loader
sets the port to `12` (Sscanf assigns the scanned prefix through the
pointer and ignores trailing input), so `1883` is not retained. -/
theorem malformed_port_counterexample :
    (newMQTTClientConfig "u" none envPortGarbage).broker.port = 12 ∧
    (newMQTTClientConfig "u" none envPortGarbage).broker.port ≠ 1883 := by
  refine ⟨by decide, by decide⟩

/-- C5 amended: a `BROKER_PORT` (resp. `PUBLISH_INTERVAL`) value from
which `Sscanf "%d"` scans no integer is silently ignored and the previous
value is retained; a value beginning with a scannable integer assigns
that integer, even when trailing characters follow. -/
theorem malformed_int_override (cfg : Config) (env : String → String) :
    (sscanfInt (env (cfg.envPref ++ "BROKER_PORT")) = none →
      (loadEnvOverrides env cfg).broker.port = cfg.broker.port) ∧
    (∀ n, env (cfg.envPref ++ "BROKER_PORT") ≠ "" →
      sscanfInt (env (cfg.envPref ++ "BROKER_PORT")) = some n →
      (loadEnvOverrides env cfg).broker.port = n) ∧
    (sscanfInt (env (cfg.envPref ++ "PUBLISH_INTERVAL")) = none →
      (loadEnvOverrides env cfg).interval = cfg.interval) ∧
    (∀ n, env (cfg.envPref ++ "PUBLISH_INTERVAL") ≠ "" →
      sscanfInt (env (cfg.envPref ++ "PUBLISH_INTERVAL")) = some n →
      (loadEnvOverrides env cfg).interval = n) := by
  refine ⟨fun h => ?_, fun n hne h => ?_, fun h => ?_, fun n hne h => ?_⟩ <;>
    simp_all [loadEnvOverrides, envInt]

/-- C5 amended witness: `EDGEX_BROKER_PORT="abc"` retains the default port
and `EDGEX_PUBLISH_INTERVAL="7"` assigns 7. -/
theorem malformed_int_override_witness :
    (loadEnvOverrides envMixedInts (defaultConfig "u")).broker.port = 1883 ∧
    (loadEnvOverrides envMixedInts (defaultConfig "u")).interval = 7 := by
  have h := malformed_int_override (defaultConfig "u") envMixedInts
  exact ⟨h.1 (by decide), h.2.2.2 7 (by decide) (by decide)⟩

/-- C6: with an empty config path and no recognised environment variables
set, the constructed client's configuration is exactly the documented
defaults. -/
theorem defaults_only_config (uuid : String) :
    (newMQTTClientConfig uuid none (fun _ => "")).broker.host = "localhost" ∧
    (newMQTTClientConfig uuid none (fun _ => "")).broker.port = 1883 ∧
    (newMQTTClientConfig uuid none (fun _ => "")).broker.protocol = "tcp" ∧
    (newMQTTClientConfig uuid none (fun _ => "")).type = "mqtt" ∧
    (newMQTTClientConfig uuid none (fun _ => "")).topic = "edgex/events/#" ∧
    (newMQTTClientConfig uuid none (fun _ => "")).publish = false ∧
    (newMQTTClientConfig uuid none (fun _ => "")).interval = 10 ∧
    (newMQTTClientConfig uuid none (fun _ => "")).logLevel = "INFO" :=
  ⟨rfl, rfl, rfl, rfl, rfl, rfl, rfl, rfl⟩

/-- C7 counterexample: the claim says that whenever `PUBLISH` is set, the
resulting `publish` equals (value = "true"); but with a file enabling
publishing and `EDGEX_PUBLISH="false"` the result keeps `publish = true`
although the value is not `"true"`. -/
theorem publish_override_counterexample :
    (newMQTTClientConfig "u" (some filePublishTrue) envPublishFalse).publish = true ∧
    envPublishFalse "EDGEX_PUBLISH" ≠ "true" := by
  refine ⟨by decide, by decide⟩

/-- C7 amended: a `PUBLISH` value of exactly `"true"` sets `publish` to
true; any other value (including the empty string) leaves `publish`
unchanged — the variable can never reset `publish` to false. -/
theorem publish_override (cfg : Config) (env : String → String) :
    (env (cfg.envPref ++ "PUBLISH") = "true" →
      (loadEnvOverrides env cfg).publish = true) ∧
    (env (cfg.envPref ++ "PUBLISH") ≠ "true" →
      (loadEnvOverrides env cfg).publish = cfg.publish) := by
  refine ⟨fun h => ?_, fun h => ?_⟩ <;> simp [loadEnvOverrides, h]

/-- C7 amended witness: `"true"` enables publishing; `"false"` leaves the
default `false` unchanged. -/
theorem publish_override_witness :
    (loadEnvOverrides envPublishTrue (defaultConfig "u")).publish = true ∧
    (loadEnvOverrides envPublishFalse (defaultConfig "u")).publish = false := by
  have h1 := publish_override (defaultConfig "u") envPublishTrue
  have h2 := publish_override (defaultConfig "u") envPublishFalse
  exact ⟨h1.1 (by decide), (h2.2 (by decide)).trans rfl⟩

/-- C8: a `Connect` failure makes `Start` return a bus error without
subscribing and without spawning any loop; a `Subscribe` failure after a
successful `Connect` returns a bus error without spawning any loop; only
when both succeed does `Start` spawn the dispatch loop, the publish loop
(iff `config.publish`), and the signal watcher, and return ok — and every
error it returns is a bus error. -/
theorem start_error_propagation (cfg : Config)
    (connectErr subscribeErr : Option String) :
    (StartAction.subscribe ∈ (start cfg connectErr subscribeErr).1 ↔
      connectErr = none) ∧
    (StartAction.spawnDispatch ∈ (start cfg connectErr subscribeErr).1 ↔
      connectErr = none ∧ subscribeErr = none) ∧
    (StartAction.spawnSignalWatcher ∈ (start cfg connectErr subscribeErr).1 ↔
      connectErr = none ∧ subscribeErr = none) ∧
    (StartAction.spawnPublish ∈ (start cfg connectErr subscribeErr).1 ↔
      connectErr = none ∧ subscribeErr = none ∧ cfg.publish = true) ∧
    ((start cfg connectErr subscribeErr).2 = none ↔
      connectErr = none ∧ subscribeErr = none) ∧
    ((start cfg connectErr subscribeErr).2 = none ∨
      ∃ m, (start cfg connectErr subscribeErr).2 = some (.busError m)) := by
  by_cases hp : cfg.publish <;>
    cases connectErr <;> cases subscribeErr <;>
      simp [start, hp]

/-- C9: `PublishTestEvent` constructs an event with the fresh UUID id, the
fixed device/profile/source names, and exactly one reading with a fresh
UUID, the same names, `TestResource`, value type `String` and value
`Test value at <timestamp>`; it hands the adapter an envelope carrying the
event's JSON, a fresh correlation UUID and content type
`application/json`, and returns ok exactly when the adapter's `Publish`
succeeds, a bus error otherwise (the total encoder never yields a
serialize error). -/
theorem publishTestEvent_postcondition (c : ClientState) (i : TestEventInputs)
    (topic : String) (pubErr : Option String) :
    (makeTestEvent i).id = i.eventUuid ∧
    (makeTestEvent i).deviceName = "TestDevice" ∧
    (makeTestEvent i).profileName = "TestProfile" ∧
    (makeTestEvent i).sourceName = "TestSource" ∧
    (makeTestEvent i).readings
      = [{ id := i.readingUuid, deviceName := "TestDevice"
           resourceName := "TestResource", profileName := "TestProfile"
           origin := i.readingOrigin, valueType := "String"
           simpleReading := { value := "Test value at " ++ i.timeStr } }] ∧
    (publishTestEvent c i topic pubErr).published
      = some ({ correlationID := i.corrUuid, contentType := "application/json"
                payload := encodeEvent (makeTestEvent i), receivedTopic := "" },
              topic) ∧
    ((publishTestEvent c i topic pubErr).result = none ↔ pubErr = none) ∧
    (publishTestEvent c i topic pubErr).result
      = pubErr.map fun e => ClientError.busError ("发布消息失败: " ++ e) := by
  refine ⟨rfl, rfl, rfl, rfl, rfl, rfl, ?_, rfl⟩
  cases pubErr <;> simp [publishTestEvent]

/-- C10: `PublishEvent` and `PublishTestEvent` read no lifecycle state —
their observable behaviour is identical in every client state — and they
return ok exactly when the adapter's `Publish` succeeds (serialization of
the modelled events is total, so the client's own state is never the
cause of an error). -/
theorem publish_no_lifecycle_precondition (c c' : ClientState) (e : Event)
    (i : TestEventInputs) (corr topic : String) (pubErr : Option String) :
    publishEvent c e corr topic pubErr = publishEvent c' e corr topic pubErr ∧
    publishTestEvent c i topic pubErr = publishTestEvent c' i topic pubErr ∧
    ((publishEvent c e corr topic pubErr).result = none ↔ pubErr = none) ∧
    ((publishTestEvent c i topic pubErr).result = none ↔ pubErr = none) := by
  refine ⟨rfl, rfl, ?_, ?_⟩ <;> cases pubErr <;>
    simp [publishEvent, publishTestEvent]

end MqttBus
